import Mathlib

/-!
# Verification of the CRM backend (src/app.py)

Shallow embedding of the data model and the database-facing operations of the
Flask CRM application: the startup schema backfill (`migrate_db`), the SKU
seeder (`populate_skus`), the retry wrapper (`execute_with_retry`), and the
read/write request handlers the claims are about.  Tables are modelled as Lean
lists of records, SQL `NULL` as `Option`, REAL/INTEGER arithmetic as exact
rational arithmetic.
-/

namespace CrmApp

/-! ## Data model (tables as lists of rows) -/

/-- A row of the `companies` table. -/
structure Company where
  id : Nat
  name : String
  website : Option String
  industry : Option String
  notes : Option String
deriving DecidableEq

/-- A row of the `contacts` table (final schema after migration). -/
structure Contact where
  id : Nat
  name : String
  email : Option String
  phone : Option String
  company : Option String
  company_id : Option Nat
  title : Option String
  website : Option String
  additional_info : Option String
deriving DecidableEq

/-- A row of the `skus` table; the UNIQUE constraint is on the whole triple
(name, category, subcategory), so the row identity is exactly this record. -/
structure Sku where
  name : String
  category : String
  subcategory : String
deriving DecidableEq

/-! ## SKU seeder (`populate_skus`, src/app.py lines 402-440) -/

/-- The hard-coded catalog inserted by `populate_skus`, in source order. -/
def skuCatalog : List Sku :=
  [ ⟨"Premium Clean Long Fiber", "Raw Materials", "Fiber"⟩,
    ⟨"Non-woven Grade, Clean Fiber", "Raw Materials", "Fiber"⟩,
    ⟨"Short Fiber/Hurd Mix", "Raw Materials", "Fiber"⟩,
    ⟨"H1 Hurd - 3/4\"", "Raw Materials", "Hurd"⟩,
    ⟨"H2 Hurd - 1/2\"", "Raw Materials", "Hurd"⟩,
    ⟨"H3 Hurd - 1/16\"", "Raw Materials", "Hurd"⟩,
    ⟨"2\"x24\"x48\"", "Products", "Insulation"⟩,
    ⟨"3.5\"x24\"x48\"", "Products", "Insulation"⟩,
    ⟨"5.5\"x24\"x48\"", "Products", "Insulation"⟩,
    ⟨"7.5\"x24\"x48\"", "Products", "Insulation"⟩,
    ⟨"1\"x24\"x48\"", "Products", "Acoustic Panels"⟩,
    ⟨"2\"x24\"x48\"", "Products", "Acoustic Panels"⟩,
    ⟨"4\"x24\"x48\"", "Products", "Acoustic Panels"⟩ ]

/-- One `INSERT INTO skus ...` attempt: the uniqueness violation on
(name, category, subcategory) is caught and discarded (`except: pass`),
so a row already present leaves the table unchanged. -/
def insertSkuIgnore (tbl : List Sku) (s : Sku) : List Sku :=
  if s ∈ tbl then tbl else tbl ++ [s]

/-- `populate_skus`: attempt every catalog entry unconditionally. -/
def populate_skus (tbl : List Sku) : List Sku :=
  skuCatalog.foldl insertSkuIgnore tbl

/-! ## Python string primitives, modelled executably -/

/-- Python `str.strip()`: drop leading and trailing whitespace. -/
def pyStrip (s : String) : String :=
  ⟨((s.data.dropWhile Char.isWhitespace).reverse.dropWhile Char.isWhitespace).reverse⟩

/-- Python `str.lower()` (ASCII case folding, which is all the retry wrapper needs). -/
def pyLower (s : String) : String :=
  ⟨s.data.map Char.toLower⟩

/-- `l` starts with `sub`. -/
def charsStartWith : List Char → List Char → Bool
  | _, [] => true
  | [], _ :: _ => false
  | a :: s, b :: t => a == b && charsStartWith s t

/-- `sub` occurs as a contiguous run somewhere in `l` (Python `sub in l`). -/
def charsContain : List Char → List Char → Bool
  | l, sub =>
    charsStartWith l sub ||
      (match l with
       | [] => false
       | _ :: t => charsContain t sub)

/-- Python `sub in s` on strings. -/
def strContains (s sub : String) : Bool :=
  charsContain s.data sub.data

/-! ## Retry wrapper (`execute_with_retry`, src/app.py lines 43-57)

The wrapped database operation is modelled as a map from attempt number to
that attempt's outcome: `Except.ok` a result, or `Except.error` the error's
string representation (`str(e)`).  The returned list records the sleep
durations (in seconds) performed between attempts, in order. -/

/-- `error_str = str(e).lower(); "locked" in error_str or "deadlock" in error_str`. -/
def isRetryable (e : String) : Bool :=
  strContains (pyLower e) "locked" || strContains (pyLower e) "deadlock"

/-- The `for attempt in range(max_retries)` loop body, from attempt number
`attempt` on: on success return; on a retryable error with attempts left,
sleep `attempt + 1` seconds and continue; otherwise re-raise. -/
def retryLoop (op : Nat → Except String α) (maxRetries attempt : Nat) :
    Except String α × List Nat :=
  match op attempt with
  | Except.ok a => (Except.ok a, [])
  | Except.error e =>
    if h : isRetryable e = true ∧ attempt < maxRetries - 1 then
      let rest := retryLoop op maxRetries (attempt + 1)
      (rest.1, (attempt + 1) :: rest.2)
    else
      (Except.error e, [])
termination_by maxRetries - attempt
decreasing_by omega

/-- `execute_with_retry(func, max_retries)`: run the loop from attempt 0. -/
def execute_with_retry (op : Nat → Except String α) (maxRetries : Nat) :
    Except String α × List Nat :=
  retryLoop op maxRetries 0

/-! ## Company backfill (`migrate_db`, src/app.py lines 340-399)

Only the data-migration pass is modelled: the earlier part of `migrate_db`
adds missing columns, which the row-level model (all columns present) already
reflects.  The database is a pair of tables; the company_map dict is an
association list consed on insert with first-match lookup. -/

/-- The `contacts` and `companies` tables. -/
structure DB where
  contacts : List Contact
  companies : List Company
deriving DecidableEq

/-- `WHERE company IS NOT NULL AND company != '' AND company_id IS NULL`. -/
def selectedForBackfill (ct : Contact) : Bool :=
  match ct.company with
  | none => false
  | some s => !(s == "") && ct.company_id.isNone

/-- `SELECT id FROM companies WHERE name = ?` followed by `fetchone()`:
the id of the first row whose name matches exactly. -/
def lookupCompanyByName (companies : List Company) (nm : String) : Option Nat :=
  (companies.find? (fun co => co.name == nm)).map Company.id

/-- Lookup in the `company_map` dict. -/
def alookup : List (String × Nat) → String → Option Nat
  | [], _ => none
  | (k, v) :: t, n => if k = n then some v else alookup t n

/-- `UPDATE contacts SET company_id = ? WHERE id = ?`. -/
def setContactCompanyId (contacts : List Contact) (cid coid : Nat) : List Contact :=
  contacts.map (fun ct => if ct.id = cid then { ct with company_id := some coid } else ct)

/-- The row id handed back for `INSERT INTO companies (name) VALUES (?)`
(SQLite `lastrowid` / Postgres `RETURNING id`): one past the largest id. -/
def nextCompanyId (companies : List Company) : Nat :=
  companies.foldr (fun co m => max co.id m) 0 + 1

/-- The body of the backfill loop for one fetched row `(contact_id, company)`:
strip the name, skip if empty, resolve via `company_map`, then via exact-name
lookup in `companies`, else create the company; finally link the contact. -/
def backfillStep (st : DB × List (String × Nat)) (row : Nat × String) :
    DB × List (String × Nat) :=
  let db := st.1
  let company_map := st.2
  let contact_id := row.1
  let company_name := pyStrip row.2
  if company_name = "" then st
  else
    match alookup company_map company_name with
    | some company_id =>
        ({ db with contacts := setContactCompanyId db.contacts contact_id company_id },
         company_map)
    | none =>
        match lookupCompanyByName db.companies company_name with
        | some company_id =>
            ({ db with contacts := setContactCompanyId db.contacts contact_id company_id },
             (company_name, company_id) :: company_map)
        | none =>
            let company_id := nextCompanyId db.companies
            ({ contacts := setContactCompanyId db.contacts contact_id company_id,
               companies := db.companies ++
                 [{ id := company_id, name := company_name,
                    website := none, industry := none, notes := none }] },
             (company_name, company_id) :: company_map)

/-- The snapshot taken by `fetchall()` before the loop: `(id, company)` of
every contact matching the backfill `SELECT`. -/
def backfillRows (db : DB) : List (Nat × String) :=
  (db.contacts.filter selectedForBackfill).map (fun ct => (ct.id, ct.company.getD ""))

/-- The data-backfill pass of `migrate_db`: fold the loop body over the
fetched rows, starting with an empty `company_map`. -/
def migrate_db (db : DB) : DB :=
  ((backfillRows db).foldl backfillStep (db, [])).1

/-- First row of the snapshot carrying a given contact id, if any
(used to characterise the effect of the fold). -/
def rowLookup : List (Nat × String) → Nat → Option String
  | [], _ => none
  | (i, s) :: t, j => if i = j then some s else rowLookup t j

/-- Pointwise description of what the backfill does to one contact, given the
final name-resolution map: untouched unless its id was fetched with a
non-whitespace company string, in which case `company_id` is set to the
resolved company id. -/
def applyAssign (resolve : String → Option Nat) (rows : List (Nat × String))
    (ct : Contact) : Contact :=
  match rowLookup rows ct.id with
  | none => ct
  | some s =>
    if pyStrip s = "" then ct
    else
      match resolve (pyStrip s) with
      | some j => { ct with company_id := some j }
      | none => ct

/-- Every entry of the `company_map` names an existing company row with
exactly that (stripped) name. -/
def cmapSound (companies : List Company) (cmap : List (String × Nat)) : Prop :=
  ∀ n j, alookup cmap n = some j → ∃ co ∈ companies, co.id = j ∧ co.name = n

/-! ## Deals, revenue and pipeline analytics -/

/-- A row of the `deals` table.  REAL/INTEGER numeric columns are modelled as
exact rationals; NULL as `none`. -/
structure Deal where
  id : Nat
  name : String
  contact_id : Option Nat
  value : Option ℚ
  probability : Option ℚ
  stage : Option String
  status : Option String
  lead_source : Option String
  budget : Option String
  authority : Option String
  need : Option String
  timeline : Option String
  expected_close_date : Option String
  closed_revenue : Option ℚ
deriving DecidableEq

/-- SQL `SUM` over a selected column: NULL entries are skipped, and the sum of
no non-NULL entries is NULL. -/
def sqlSumStep (acc x : Option ℚ) : Option ℚ :=
  match acc, x with
  | none, none => none
  | none, some v => some v
  | some a, none => some a
  | some a, some v => some (a + v)

def sqlSum (xs : List (Option ℚ)) : Option ℚ :=
  xs.foldl sqlSumStep none

/-- Python truthiness of a nullable number (`if deal['value'] and ...`):
`None` and `0` are falsy. -/
def truthyQ : Option ℚ → Bool
  | none => false
  | some v => !(v == 0)

/-- `deal['value'] * deal['probability'] / 100`. -/
def forecastTerm (d : Deal) : ℚ :=
  d.value.getD 0 * d.probability.getD 0 / 100

/-- The JSON body returned by `GET /api/revenue`. -/
structure Revenue where
  pipeline : ℚ
  forecasted : ℚ
  realized : ℚ
deriving DecidableEq

/-- `get_revenue` (src/app.py lines 986-1013): `realized` and `pipeline` via
SQL `SUM(value)` with `or 0`, `forecasted` summed in Python over the open
deals whose value and probability are both truthy. -/
def get_revenue (deals : List Deal) : Revenue :=
  let realized := sqlSum ((deals.filter (fun d => d.status == some "closed")).map Deal.value)
  let pipeline := sqlSum ((deals.filter (fun d => d.status == some "open")).map Deal.value)
  let open_deals := deals.filter (fun d => d.status == some "open")
  let forecasted :=
    ((open_deals.filter (fun d => truthyQ d.value && truthyQ d.probability)).map
      forecastTerm).sum
  { pipeline := (pipeline.getD 0), forecasted := forecasted, realized := (realized.getD 0) }

/-- The spec's wording of `pipeline`: sum of `value` over open deals,
NULL contributing 0. -/
def specPipeline (deals : List Deal) : ℚ :=
  ((deals.filter (fun d => d.status == some "open")).map (fun d => d.value.getD 0)).sum

/-- The spec's wording of `realized`: sum of `value` over closed deals,
NULL contributing 0. -/
def specRealized (deals : List Deal) : ℚ :=
  ((deals.filter (fun d => d.status == some "closed")).map (fun d => d.value.getD 0)).sum

/-- The spec's wording of `forecasted`: sum of value × probability / 100 over
open deals with both fields non-null. -/
def specForecasted (deals : List Deal) : ℚ :=
  ((deals.filter (fun d =>
      d.status == some "open" && d.value.isSome && d.probability.isSome)).map
    forecastTerm).sum

/-- First example deal of the spec: open, value 100000, probability 50. -/
def exDealA : Deal :=
  { id := 1, name := "A", contact_id := none, value := some 100000,
    probability := some 50, stage := some "proposal", status := some "open",
    lead_source := none, budget := none, authority := none, need := none,
    timeline := none, expected_close_date := none, closed_revenue := none }

/-- Second example deal of the spec: open, value 50000, probability NULL. -/
def exDealB : Deal :=
  { id := 2, name := "B", contact_id := none, value := some 50000,
    probability := none, stage := some "proposal", status := some "open",
    lead_source := none, budget := none, authority := none, need := none,
    timeline := none, expected_close_date := none, closed_revenue := none }

/-! ## Deal update (`update_deal`, src/app.py lines 842-898) -/

/-- The request body of `PUT /api/deals/<id>`. -/
structure DealData where
  name : String
  contact_id : Option Nat
  value : Option ℚ
  probability : Option ℚ
  stage : Option String
  status : Option String
  lead_source : Option String
  budget : Option String
  authority : Option String
  need : Option String
  timeline : Option String
  expected_close_date : Option String
  closed_revenue : Option ℚ
  sku_ids : List Nat
deriving DecidableEq

/-- `update_deal`: `UPDATE deals SET ... WHERE id=?`, then
`DELETE FROM deal_skus WHERE deal_id=?` and one `INSERT` per requested sku id.
The junction table `deal_skus` is the second component, as `(deal_id, sku_id)`
pairs. -/
def update_deal (deals : List Deal) (junction : List (Nat × Nat)) (deal_id : Nat)
    (data : DealData) : List Deal × List (Nat × Nat) :=
  (deals.map (fun dl =>
      if dl.id = deal_id then
        { id := dl.id, name := data.name, contact_id := data.contact_id,
          value := data.value, probability := data.probability,
          stage := data.stage, status := data.status,
          lead_source := data.lead_source, budget := data.budget,
          authority := data.authority, need := data.need,
          timeline := data.timeline,
          expected_close_date := data.expected_close_date,
          closed_revenue := data.closed_revenue }
      else dl),
   junction.filter (fun r => !(r.1 == deal_id)) ++
     data.sku_ids.map (fun s => (deal_id, s)))

/-! ## Company deletion (`delete_company`, src/app.py lines 698-722) -/

/-- `UPDATE contacts SET company_id = NULL WHERE company_id = ?` followed by
`DELETE FROM companies WHERE id=?`. -/
def delete_company (db : DB) (company_id : Nat) : DB :=
  { contacts := db.contacts.map (fun ct =>
      if ct.company_id = some company_id then { ct with company_id := none } else ct),
    companies := db.companies.filter (fun co => !(co.id == company_id)) }

/-! ## Weekly digest (`get_tasks_this_week`, src/app.py lines 1411-1495)

DATE columns hold ISO strings and are compared with string `<=` against
`str(monday)`; lexicographic order on ISO dates is chronological, so dates are
modelled as day numbers, with day 0 a Monday (Python `date.weekday()` is 0 on
Mondays). -/

/-- A row of the `tasks` table. -/
structure Task where
  id : Nat
  name : String
  detail : Option String
  due_date : Option Nat
  completed : Bool
  priority : Option String
  category : Option String
  assignee : Option String
  recurring : Option String
deriving DecidableEq

/-- A row of the `activities` table. -/
structure Activity where
  id : Nat
  deal_id : Option Nat
  contact_id : Option Nat
  type : Option String
  description : Option String
  next_steps : Option String
  due_date : Option Nat
deriving DecidableEq

/-- `due_date >= monday AND due_date <= sunday` with SQL NULL semantics:
a NULL due date satisfies neither comparison. -/
def dueInWindow (due : Option Nat) (monday sunday : Nat) : Bool :=
  match due with
  | none => false
  | some d => decide (monday ≤ d) && decide (d ≤ sunday)

/-- An element of the combined digest list (`item_type` is `'next_step'` for
activity rows and `'task'` for task rows). -/
inductive WeekItem where
  | nextStep (a : Activity)
  | task (t : Task)
deriving DecidableEq

def WeekItem.due : WeekItem → Option Nat
  | .nextStep a => a.due_date
  | .task t => t.due_date

def WeekItem.prio : WeekItem → Option String
  | .nextStep _ => none
  | .task t => t.priority

/-- The Python sort key's second component:
`0 if priority == 'High' else 1 if 'Medium' else 2 if 'Low' else 3`. -/
def prioRank (p : Option String) : Nat :=
  if p = some "High" then 0
  else if p = some "Medium" then 1
  else if p = some "Low" then 2
  else 3

/-- The sort key `(due_date or sentinel, priority rank)`; `9999-12-31` is
modelled by a day number no stored date reaches. -/
def weekSortKey (x : WeekItem) : Nat × Nat :=
  (x.due.getD 99991231, prioRank x.prio)

/-- Python tuple comparison is lexicographic. -/
def weekItemLe (x y : WeekItem) : Bool :=
  decide ((weekSortKey x).1 < (weekSortKey y).1) ||
    (decide ((weekSortKey x).1 = (weekSortKey y).1) &&
      decide ((weekSortKey x).2 ≤ (weekSortKey y).2))

/-- `get_tasks_this_week`: monday/sunday of the current week, the two
window-filtered selects (tasks additionally excluding completed ones),
concatenated and sorted by the combined key. -/
def get_tasks_this_week (activities : List Activity) (tasks : List Task)
    (today : Nat) : List WeekItem :=
  let monday := today - today % 7
  let sunday := monday + 6
  let next_steps :=
    (activities.filter (fun a => dueInWindow a.due_date monday sunday)).map
      WeekItem.nextStep
  let weekTasks :=
    (tasks.filter (fun t => dueInWindow t.due_date monday sunday && !t.completed)).map
      WeekItem.task
  (next_steps ++ weekTasks).mergeSort weekItemLe

/-! ## Pipeline analytics (`get_pipeline_analytics`, src/app.py lines 1039-1139)

Only the aggregates the claim speaks about are modelled: the per-stage groups
(with their value/weighted/count sums and the grand totals over the four
stages of `stage_order`) and the monthly forecast buckets keyed by
`expected_close_date[:7]`, which iterate over all fetched open deals. -/

def stage_order : List String :=
  ["qualification", "needs_analysis", "proposal", "negotiation"]

/-- The deals fetched by the analytics query: `WHERE d.status = 'open'`. -/
def openDeals (deals : List Deal) : List Deal :=
  deals.filter (fun d => d.status == some "open")

/-- The `deals` list of the stage bucket for `st`. -/
def stageDeals (deals : List Deal) (st : String) : List Deal :=
  (openDeals deals).filter (fun d => d.stage == some st)

def stageTotal (deals : List Deal) (st : String) : ℚ :=
  ((stageDeals deals st).map (fun d => d.value.getD 0)).sum

def stageWeighted (deals : List Deal) (st : String) : ℚ :=
  ((stageDeals deals st).map (fun d => d.value.getD 0 * d.probability.getD 0 / 100)).sum

def stageCount (deals : List Deal) (st : String) : Nat :=
  (stageDeals deals st).length

/-- `totals.pipeline`: the stage totals summed over `stage_order`. -/
def totalsPipeline (deals : List Deal) : ℚ :=
  (stage_order.map (stageTotal deals)).sum

/-- `totals.weighted`. -/
def totalsWeighted (deals : List Deal) : ℚ :=
  (stage_order.map (stageWeighted deals)).sum

/-- `totals.deal_count`. -/
def totalsDealCount (deals : List Deal) : Nat :=
  (stage_order.map (stageCount deals)).sum

/-- Python `s[:7]`. -/
def strTakeSeven (s : String) : String :=
  ⟨s.data.take 7⟩

/-- The monthly-forecast bucket key: `close_date[:7]` when the close date is
truthy, `'No Date Set'` otherwise (`None` and `''` are both falsy). -/
def monthKey (d : Deal) : String :=
  match d.expected_close_date with
  | some s => if s = "" then "No Date Set" else strTakeSeven s
  | none => "No Date Set"

/-- The open deals landing in the monthly bucket `k` — the monthly loop runs
over every fetched open deal, with no stage restriction. -/
def monthlyBucketDeals (deals : List Deal) (k : String) : List Deal :=
  (openDeals deals).filter (fun d => monthKey d == k)

def monthlyTotal (deals : List Deal) (k : String) : ℚ :=
  ((monthlyBucketDeals deals k).map (fun d => d.value.getD 0)).sum

def monthlyWeighted (deals : List Deal) (k : String) : ℚ :=
  ((monthlyBucketDeals deals k).map
    (fun d => d.value.getD 0 * d.probability.getD 0 / 100)).sum

/-- The bucket keys of `monthly_forecast`, one per distinct key, and the sum
of the bucket totals over them. -/
def monthlyKeys (deals : List Deal) : List String :=
  ((openDeals deals).map monthKey).dedup

def monthlyTotalSum (deals : List Deal) : ℚ :=
  ((monthlyKeys deals).map (monthlyTotal deals)).sum

/-- An open deal whose stage is outside `stage_order`. -/
def dealOffStage : Deal :=
  { id := 7, name := "Off", contact_id := none, value := some 100,
    probability := some 50, stage := some "prospecting", status := some "open",
    lead_source := none, budget := none, authority := none, need := none,
    timeline := none, expected_close_date := none, closed_revenue := none }

/-! ## Goal progress (`get_goal_progress`, src/app.py lines 1209-1249) -/

/-- The digit run of Python `float` parsing that the settings values use:
a non-empty all-digit string, as a natural number. -/
def digitsVal (l : List Char) : Option Nat :=
  if !l.isEmpty && l.all Char.isDigit then
    some (l.foldl (fun acc c => acc * 10 + (c.toNat - 48)) 0)
  else none

/-- Split a character list at the first `'.'`, if any. -/
def splitDot : List Char → List Char × Option (List Char)
  | [] => ([], none)
  | c :: t =>
    if c = '.' then ([], some t)
    else
      let r := splitDot t
      (c :: r.1, r.2)

/-- Python `float(s)` on the decimal forms the settings table can hold
(optional sign, digits, optional fraction); `none` models the `ValueError`
that a non-numeric string raises, which surfaces as a 500 response. -/
def parseDecimal (s : String) : Option ℚ :=
  let signedBody : ℚ × List Char :=
    match s.data with
    | '-' :: t => (-1, t)
    | '+' :: t => (1, t)
    | t => (1, t)
  match splitDot signedBody.2 with
  | (ip, none) => (digitsVal ip).map (fun n => signedBody.1 * (n : ℚ))
  | (ip, some fp) =>
    match digitsVal ip, digitsVal fp with
    | some i, some f =>
        some (signedBody.1 * ((i : ℚ) + (f : ℚ) / (10 : ℚ) ^ fp.length))
    | _, _ => none

/-- `SELECT value FROM settings WHERE key = ?` then `fetchone()`. -/
def settingsLookup (settings : List (String × String)) (k : String) : Option String :=
  (settings.find? (fun r => r.1 == k)).map Prod.snd

/-- The JSON body returned by `GET /api/goal/progress`. -/
structure GoalProgress where
  annual_goal : ℚ
  closed_revenue : ℚ
  percentage : ℚ
deriving DecidableEq

/-- `get_goal_progress`: default the goal to 1000000 when no `annual_goal`
row exists, parse it otherwise (a parse failure propagates as an error,
modelled by `none`), sum `closed_revenue` over all deals with
`COALESCE(SUM(...), 0)`, and guard the percentage against a non-positive
goal. -/
def get_goal_progress (settings : List (String × String)) (deals : List Deal) :
    Option GoalProgress :=
  let goal_result := settingsLookup settings "annual_goal"
  let annual_goal : Option ℚ :=
    match goal_result with
    | some v => parseDecimal v
    | none => some 1000000
  match annual_goal with
  | none => none
  | some g =>
    let closed_revenue := (deals.map (fun d => d.closed_revenue.getD 0)).sum
    some { annual_goal := g, closed_revenue := closed_revenue,
           percentage := if g > 0 then closed_revenue / g * 100 else 0 }

/-! ## Concrete witness data -/

/-- A wrapped operation that hits a locked database twice and then succeeds. -/
def exRetryOp : Nat → Except String Nat :=
  fun i => if i < 2 then Except.error "database is locked" else Except.ok 42

/-- A `PUT /api/deals/<id>` body carrying `sku_ids = [2, 3]`. -/
def exUpdateData : DealData :=
  { name := "Deal", contact_id := none, value := some 1000, probability := some 50,
    stage := some "proposal", status := some "open", lead_source := none,
    budget := none, authority := none, need := none, timeline := none,
    expected_close_date := none, closed_revenue := some 0, sku_ids := [2, 3] }

def exContact1 : Contact :=
  { id := 1, name := "Ann", email := none, phone := none, company := some "  Acme ",
    company_id := none, title := none, website := none, additional_info := none }

def exContact2 : Contact :=
  { id := 2, name := "Bob", email := none, phone := none, company := some "Acme",
    company_id := none, title := none, website := none, additional_info := none }

def exContact3 : Contact :=
  { id := 3, name := "Cid", email := none, phone := none, company := some " ",
    company_id := none, title := none, website := none, additional_info := none }

def exContact4 : Contact :=
  { id := 4, name := "Dee", email := none, phone := none, company := some "Globex",
    company_id := some 9, title := none, website := none, additional_info := none }

/-- A pre-backfill database: two spellings of the same company name, a
whitespace-only name, and an already-linked contact. -/
def dbEx : DB :=
  { contacts := [exContact1, exContact2, exContact3, exContact4],
    companies := [{ id := 9, name := "Globex", website := none, industry := none,
                    notes := none }] }

/-- A task due on the Wednesday of the week of day 9 (whose Monday is day 7). -/
def exTaskWed : Task :=
  { id := 1, name := "Call", detail := none, due_date := some 9, completed := false,
    priority := some "High", category := none, assignee := none, recurring := none }

/-- The same task, already completed. -/
def exTaskWedDone : Task :=
  { id := 1, name := "Call", detail := none, due_date := some 9, completed := true,
    priority := some "High", category := none, assignee := none, recurring := none }

lemma mem_insertSkuIgnore_of_mem {tbl : List Sku} {x : Sku} (s : Sku) (h : x ∈ tbl) :
    x ∈ insertSkuIgnore tbl s := by
  unfold insertSkuIgnore
  split
  · exact h
  · exact List.mem_append_left _ h

lemma self_mem_insertSkuIgnore (tbl : List Sku) (s : Sku) : s ∈ insertSkuIgnore tbl s := by
  unfold insertSkuIgnore
  split
  · assumption
  · exact List.mem_append_right _ (List.mem_singleton.mpr rfl)

lemma mem_foldl_insertSkuIgnore_of_mem (l : List Sku) :
    ∀ (tbl : List Sku) (x : Sku), x ∈ tbl → x ∈ l.foldl insertSkuIgnore tbl := by
  induction l with
  | nil => intro tbl x h; simpa using h
  | cons s t ih =>
      intro tbl x h
      simpa using ih _ _ (mem_insertSkuIgnore_of_mem s h)

lemma mem_foldl_insertSkuIgnore (l : List Sku) :
    ∀ (tbl : List Sku) (s : Sku), s ∈ l → s ∈ l.foldl insertSkuIgnore tbl := by
  induction l with
  | nil => intro tbl s h; simp at h
  | cons a t ih =>
      intro tbl s h
      rcases List.mem_cons.mp h with h | h
      · subst h
        simpa using mem_foldl_insertSkuIgnore_of_mem t _ s (self_mem_insertSkuIgnore tbl s)
      · simpa using ih _ s h

lemma foldl_insertSkuIgnore_noop (l : List Sku) :
    ∀ (tbl : List Sku), (∀ s ∈ l, s ∈ tbl) → l.foldl insertSkuIgnore tbl = tbl := by
  induction l with
  | nil => intro tbl _; rfl
  | cons a t ih =>
      intro tbl h
      have ha : a ∈ tbl := h a (List.mem_cons_self a t)
      have : insertSkuIgnore tbl a = tbl := by
        unfold insertSkuIgnore
        exact if_pos ha
      simp only [List.foldl_cons, this]
      exact ih tbl fun s hs => h s (List.mem_cons_of_mem a hs)

/-! ## Claim C3: the SKU seeder -/

/-- C3, counterexample: the hard-coded catalog of `populate_skus` has 13
entries, not 12 as the claim states — seeding an empty table leaves 13 rows. -/
theorem C3_twelve_entries_counterexample :
    skuCatalog.length = 13 ∧ (populate_skus []).length = 13 ∧
      ¬ (populate_skus []).length = 12 := by
  refine ⟨by decide, by decide, by decide⟩

/-- C3, amended: `populate_skus` inserts a fixed hard-coded catalog of exactly
13 entries spanning two categories and four subcategories; every entry is
attempted unconditionally with uniqueness violations on
(name, category, subcategory) discarded, seeding an empty table yields the 13
distinct catalog rows, and running the seeder twice (from any table state)
leaves exactly what one run leaves — no duplicates. -/
theorem C3_seeder_amended :
    skuCatalog.length = 13 ∧
    ((skuCatalog.map Sku.category).dedup).length = 2 ∧
    ((skuCatalog.map Sku.subcategory).dedup).length = 4 ∧
    (populate_skus []).Nodup ∧
    populate_skus [] = skuCatalog ∧
    ∀ tbl : List Sku, populate_skus (populate_skus tbl) = populate_skus tbl := by
  refine ⟨by decide, by decide, by decide, by decide, by decide, ?_⟩
  intro tbl
  unfold populate_skus
  exact foldl_insertSkuIgnore_noop skuCatalog _
    (fun s hs => mem_foldl_insertSkuIgnore skuCatalog tbl s hs)

/-! ## Claim C6: deal update replaces the SKU association set -/

lemma filter_eq_of_filter_not (l : List (Nat × Nat)) (d : Nat) :
    (l.filter (fun r => !(r.1 == d))).filter (fun r => r.1 == d) = [] := by
  induction l with
  | nil => rfl
  | cons a t ih =>
      by_cases h : a.1 = d <;> simp [List.filter_cons, h, ih]

lemma filter_not_idem (l : List (Nat × Nat)) (d : Nat) :
    (l.filter (fun r => !(r.1 == d))).filter (fun r => !(r.1 == d)) =
      l.filter (fun r => !(r.1 == d)) := by
  induction l with
  | nil => rfl
  | cons a t ih =>
      by_cases h : a.1 = d <;> simp [List.filter_cons, h, ih]

/-- C6: updating a deal that currently has junction rows for SKU ids [1, 2]
with `sku_ids = [2, 3]` leaves exactly the rows (deal, 2) and (deal, 3) for
that deal — the full association set is replaced, (deal, 1) is gone, and the
junction rows of every other deal are unchanged. -/
theorem C6_update_deal_replaces_skus (deals : List Deal) (junction : List (Nat × Nat))
    (d : Nat) (data : DealData) (hsku : data.sku_ids = [2, 3])
    (_hcur : junction.filter (fun r => r.1 == d) = [(d, 1), (d, 2)]) :
    (update_deal deals junction d data).2.filter (fun r => r.1 == d) = [(d, 2), (d, 3)] ∧
    (d, 1) ∉ (update_deal deals junction d data).2 ∧
    (update_deal deals junction d data).2.filter (fun r => !(r.1 == d)) =
      junction.filter (fun r => !(r.1 == d)) := by
  refine ⟨?_, ?_, ?_⟩
  · simp [update_deal, hsku, List.filter_append, filter_eq_of_filter_not]
  · simp [update_deal, hsku, List.mem_filter]
  · simp [update_deal, hsku, List.filter_append, filter_not_idem]

/-- C6 witness at a concrete junction table. -/
theorem C6_update_deal_replaces_skus_witness :
    (update_deal [] [(5, 1), (5, 2), (9, 7)] 5 exUpdateData).2.filter
        (fun r => r.1 == 5) = [(5, 2), (5, 3)] ∧
    (5, 1) ∉ (update_deal [] [(5, 1), (5, 2), (9, 7)] 5 exUpdateData).2 ∧
    (update_deal [] [(5, 1), (5, 2), (9, 7)] 5 exUpdateData).2.filter
        (fun r => !(r.1 == 5)) = [(9, 7)] := by
  have h := C6_update_deal_replaces_skus [] [(5, 1), (5, 2), (9, 7)] 5 exUpdateData
    (by decide) (by decide)
  refine ⟨h.1, h.2.1, ?_⟩
  rw [h.2.2]
  decide

/-! ## Claim C7: company deletion nulls links and preserves everything else -/

/-- C7: deleting a company removes its row from `companies`, keeps every
other company, keeps every contact row (same count), and pointwise each
contact keeps every field — in particular the free-text `company` — except
that a `company_id` referencing the deleted company becomes NULL. -/
theorem C7_delete_company_frame (db : DB) (cid : Nat) (i : Nat)
    (hi : i < db.contacts.length)
    (hi' : i < (delete_company db cid).contacts.length) :
    (∀ co ∈ (delete_company db cid).companies, co.id ≠ cid) ∧
    (∀ co ∈ db.companies, co.id ≠ cid → co ∈ (delete_company db cid).companies) ∧
    (delete_company db cid).contacts.length = db.contacts.length ∧
    (((delete_company db cid).contacts.get ⟨i, hi'⟩).id
        = (db.contacts.get ⟨i, hi⟩).id ∧
     ((delete_company db cid).contacts.get ⟨i, hi'⟩).name
        = (db.contacts.get ⟨i, hi⟩).name ∧
     ((delete_company db cid).contacts.get ⟨i, hi'⟩).email
        = (db.contacts.get ⟨i, hi⟩).email ∧
     ((delete_company db cid).contacts.get ⟨i, hi'⟩).phone
        = (db.contacts.get ⟨i, hi⟩).phone ∧
     ((delete_company db cid).contacts.get ⟨i, hi'⟩).company
        = (db.contacts.get ⟨i, hi⟩).company ∧
     ((delete_company db cid).contacts.get ⟨i, hi'⟩).title
        = (db.contacts.get ⟨i, hi⟩).title ∧
     ((delete_company db cid).contacts.get ⟨i, hi'⟩).website
        = (db.contacts.get ⟨i, hi⟩).website ∧
     ((delete_company db cid).contacts.get ⟨i, hi'⟩).additional_info
        = (db.contacts.get ⟨i, hi⟩).additional_info ∧
     ((delete_company db cid).contacts.get ⟨i, hi'⟩).company_id
        = (if (db.contacts.get ⟨i, hi⟩).company_id = some cid then none
           else (db.contacts.get ⟨i, hi⟩).company_id)) := by
  refine ⟨?_, ?_, ?_, ?_⟩
  · intro co hco
    simp only [delete_company, List.mem_filter] at hco
    simpa using hco.2
  · intro co hco hne
    simp only [delete_company, List.mem_filter]
    exact ⟨hco, by simpa using hne⟩
  · simp [delete_company]
  · have hget : (delete_company db cid).contacts.get ⟨i, hi'⟩
        = (fun ct => if ct.company_id = some cid then { ct with company_id := none }
                     else ct) (db.contacts.get ⟨i, hi⟩) := by
      simp [delete_company]
    rw [hget]
    simp only [List.get_eq_getElem]
    by_cases h : db.contacts[i].company_id = some cid <;> simp [h]

/-- C7 witness: deleting company 9 from `dbEx` nulls the link of contact 4
(at index 3) while keeping its free-text company name. -/
theorem C7_delete_company_frame_witness :
    (delete_company dbEx 9).contacts.length = dbEx.contacts.length ∧
    ((delete_company dbEx 9).contacts.get ⟨3, by decide⟩).company
      = (dbEx.contacts.get ⟨3, by decide⟩).company ∧
    ((delete_company dbEx 9).contacts.get ⟨3, by decide⟩).company_id = none := by
  have h := C7_delete_company_frame dbEx 9 3 (by decide) (by decide)
  refine ⟨h.2.2.1, h.2.2.2.2.2.2.2.1, ?_⟩
  have h9 := h.2.2.2.2.2.2.2.2.2.2.2
  rw [h9]
  decide

/-! ## Claim C10: goal progress never divides by zero and defaults the goal -/

/-- C10: when the stored `annual_goal` parses to a non-positive number the
endpoint returns percentage 0 instead of failing, and when no `annual_goal`
row exists it uses the default 1000000 instead of returning 404. -/
theorem C10_goal_progress_safe (settings : List (String × String)) (deals : List Deal) :
    (∀ v g, settingsLookup settings "annual_goal" = some v → parseDecimal v = some g →
      g ≤ 0 →
      get_goal_progress settings deals =
        some { annual_goal := g,
               closed_revenue := (deals.map (fun d => d.closed_revenue.getD 0)).sum,
               percentage := 0 }) ∧
    (settingsLookup settings "annual_goal" = none →
      get_goal_progress settings deals =
        some { annual_goal := 1000000,
               closed_revenue := (deals.map (fun d => d.closed_revenue.getD 0)).sum,
               percentage := (deals.map (fun d => d.closed_revenue.getD 0)).sum
                               / 1000000 * 100 }) := by
  constructor
  · intro v g hv hg hle
    simp only [get_goal_progress, hv, hg]
    rw [if_neg (not_lt.mpr hle)]
  · intro hv
    simp only [get_goal_progress, hv]
    rw [if_pos (by norm_num)]

/-- C10 witness: a stored goal of "0" yields percentage 0, and an empty
settings table yields the default goal. -/
theorem C10_goal_progress_safe_witness :
    get_goal_progress [("annual_goal", "0")] [] =
      some { annual_goal := 0, closed_revenue := 0, percentage := 0 } ∧
    get_goal_progress [] [] =
      some { annual_goal := 1000000, closed_revenue := 0, percentage := 0 } := by
  have hp : parseDecimal "0" = some 0 := by
    have h : parseDecimal "0" = some (1 * ((0 : Nat) : ℚ)) := rfl
    rw [h]; norm_num
  have h1 := (C10_goal_progress_safe [("annual_goal", "0")] []).1 "0" 0 rfl hp le_rfl
  have h2 := (C10_goal_progress_safe [] []).2 rfl
  constructor
  · simpa using h1
  · rw [h2]
    norm_num

/-! ## Claim C5: revenue totals -/

lemma sqlSum_foldl_getD (xs : List (Option ℚ)) :
    ∀ acc : Option ℚ, (xs.foldl sqlSumStep acc).getD 0
      = acc.getD 0 + (xs.map (fun x => x.getD 0)).sum := by
  induction xs with
  | nil => intro acc; simp
  | cons x t ih =>
      intro acc
      have hstep : (sqlSumStep acc x).getD 0 = acc.getD 0 + x.getD 0 := by
        cases acc <;> cases x <;> simp [sqlSumStep]
      simp only [List.foldl_cons, List.map_cons, List.sum_cons]
      rw [ih (sqlSumStep acc x), hstep]
      ring

/-- SQL `SUM(col) ... or 0` equals the sum with NULL contributing 0. -/
lemma sqlSum_getD (xs : List (Option ℚ)) :
    (sqlSum xs).getD 0 = (xs.map (fun x => x.getD 0)).sum := by
  simpa using sqlSum_foldl_getD xs none

/-- Filtering on Python truthiness of value/probability gives the same sum as
filtering on non-NULL-ness: the deals the two conditions disagree on carry a
zero factor, hence a zero term. -/
lemma forecast_truthy_eq_isSome (l : List Deal) :
    ((l.filter (fun d => truthyQ d.value && truthyQ d.probability)).map forecastTerm).sum
      = ((l.filter (fun d => d.value.isSome && d.probability.isSome)).map
          forecastTerm).sum := by
  induction l with
  | nil => rfl
  | cons d t ih =>
      rcases hv : d.value with _ | v
      · have h1 : (truthyQ d.value && truthyQ d.probability) = false := by
          simp [truthyQ, hv]
        have h2 : (d.value.isSome && d.probability.isSome) = false := by
          simp [hv]
        simp only [List.filter_cons, h1, h2, Bool.false_eq_true, if_false]
        exact ih
      · rcases hp : d.probability with _ | p
        · have h1 : (truthyQ d.value && truthyQ d.probability) = false := by
            simp [truthyQ, hp]
          have h2 : (d.value.isSome && d.probability.isSome) = false := by
            simp [hp]
          simp only [List.filter_cons, h1, h2, Bool.false_eq_true, if_false]
          exact ih
        · by_cases hv0 : v = 0
          · have hterm : forecastTerm d = 0 := by
              simp [forecastTerm, hv, hv0]
            have h1 : (truthyQ d.value && truthyQ d.probability) = false := by
              simp [truthyQ, hv, hv0]
            have h2 : (d.value.isSome && d.probability.isSome) = true := by
              simp [hv, hp]
            simp only [List.filter_cons, h1, h2, Bool.false_eq_true, if_false, if_true,
              List.map_cons, List.sum_cons, hterm, zero_add]
            exact ih
          · by_cases hp0 : p = 0
            · have hterm : forecastTerm d = 0 := by
                simp [forecastTerm, hp, hp0]
              have h1 : (truthyQ d.value && truthyQ d.probability) = false := by
                simp [truthyQ, hp, hp0]
              have h2 : (d.value.isSome && d.probability.isSome) = true := by
                simp [hv, hp]
              simp only [List.filter_cons, h1, h2, Bool.false_eq_true, if_false, if_true,
                List.map_cons, List.sum_cons, hterm, zero_add]
              exact ih
            · have h1 : (truthyQ d.value && truthyQ d.probability) = true := by
                simp [truthyQ, hv, hp, hv0, hp0]
              have h2 : (d.value.isSome && d.probability.isSome) = true := by
                simp [hv, hp]
              simp only [List.filter_cons, h1, h2, if_true, List.map_cons, List.sum_cons]
              rw [ih]

lemma get_revenue_pipeline (deals : List Deal) :
    (get_revenue deals).pipeline = specPipeline deals := by
  simp only [get_revenue, specPipeline]
  rw [sqlSum_getD, List.map_map]
  rfl

lemma get_revenue_realized (deals : List Deal) :
    (get_revenue deals).realized = specRealized deals := by
  simp only [get_revenue, specRealized]
  rw [sqlSum_getD, List.map_map]
  rfl

lemma get_revenue_forecasted (deals : List Deal) :
    (get_revenue deals).forecasted = specForecasted deals := by
  simp only [get_revenue, specForecasted]
  rw [forecast_truthy_eq_isSome, List.filter_filter]
  congr 1
  congr 1
  apply List.filter_congr
  intro d _
  cases d.status <;> cases d.value <;> cases d.probability <;> simp

/-- C5: `GET /api/revenue` returns pipeline = Σ value over open deals
(NULL as 0), realized = Σ value over closed deals (NULL as 0), and
forecasted = Σ value × probability / 100 over open deals with both fields
non-null; on the spec's example pair of open deals the result is
pipeline 150000, forecasted 50000 (realized 0). -/
theorem C5_revenue_totals :
    (∀ deals : List Deal,
      get_revenue deals =
        { pipeline := specPipeline deals, forecasted := specForecasted deals,
          realized := specRealized deals }) ∧
    get_revenue [exDealA, exDealB] =
      { pipeline := 150000, forecasted := 50000, realized := 0 } := by
  have hmain : ∀ deals : List Deal,
      get_revenue deals =
        { pipeline := specPipeline deals, forecasted := specForecasted deals,
          realized := specRealized deals } := by
    intro deals
    have heta : get_revenue deals =
        ⟨(get_revenue deals).pipeline, (get_revenue deals).forecasted,
         (get_revenue deals).realized⟩ := rfl
    rw [heta, get_revenue_pipeline, get_revenue_forecasted, get_revenue_realized]
  refine ⟨hmain, ?_⟩
  rw [hmain]
  rw [Revenue.mk.injEq]
  refine ⟨?_, ?_, ?_⟩
  · simp [specPipeline, exDealA, exDealB]
    norm_num
  · simp [specForecasted, exDealA, exDealB, forecastTerm]
    norm_num
  · simp [specRealized, exDealA, exDealB]

/-! ## Claim C9: analytics stage totals vs monthly forecast -/

/-- C9: an open deal whose stage is outside `stage_order` lands in no stage
group (hence contributes to none of the totals, which are sums over the four
stage groups) yet is still bucketed by the monthly forecast; concretely, for
the single off-stage open deal `dealOffStage` the totals are all zero while
its monthly bucket carries its full value 100 and weighted value 50, so
`totals.pipeline` differs from the sum over `monthly_forecast`. -/
theorem C9_offstage_excluded_from_totals :
    (∀ (deals : List Deal), ∀ d ∈ openDeals deals,
      (∀ st ∈ stage_order, d.stage ≠ some st) →
      (∀ st ∈ stage_order, d ∉ stageDeals deals st) ∧
        d ∈ monthlyBucketDeals deals (monthKey d)) ∧
    totalsPipeline [dealOffStage] = 0 ∧
    totalsWeighted [dealOffStage] = 0 ∧
    totalsDealCount [dealOffStage] = 0 ∧
    monthlyTotal [dealOffStage] (monthKey dealOffStage) = 100 ∧
    monthlyWeighted [dealOffStage] (monthKey dealOffStage) = 50 ∧
    monthlyTotalSum [dealOffStage] = 100 ∧
    ¬ totalsPipeline [dealOffStage] = monthlyTotalSum [dealOffStage] := by
  have hgen : ∀ (deals : List Deal), ∀ d ∈ openDeals deals,
      (∀ st ∈ stage_order, d.stage ≠ some st) →
      (∀ st ∈ stage_order, d ∉ stageDeals deals st) ∧
        d ∈ monthlyBucketDeals deals (monthKey d) := by
    intro deals d hd hoff
    constructor
    · intro st hst hmem
      have h2 := (List.mem_filter.mp hmem).2
      exact hoff st hst (by simpa using h2)
    · exact List.mem_filter.mpr ⟨hd, by simp⟩
  have hpipe : totalsPipeline [dealOffStage] = 0 := by
    simp [totalsPipeline, stage_order, stageTotal, stageDeals, openDeals, dealOffStage]
  have hsum : monthlyTotalSum [dealOffStage] = 100 := by
    simp [monthlyTotalSum, monthlyKeys, monthlyTotal, monthlyBucketDeals, openDeals,
      monthKey, dealOffStage]
  refine ⟨hgen, hpipe, ?_, ?_, ?_, ?_, hsum, ?_⟩
  · simp [totalsWeighted, stage_order, stageWeighted, stageDeals, openDeals, dealOffStage]
  · simp [totalsDealCount, stage_order, stageCount, stageDeals, openDeals, dealOffStage]
  · simp [monthlyTotal, monthlyBucketDeals, openDeals, monthKey, dealOffStage]
  · simp [monthlyWeighted, monthlyBucketDeals, openDeals, monthKey, dealOffStage]
  · rw [hpipe, hsum]
    norm_num

/-- C9 witness: the general exclusion/inclusion facts applied to the concrete
off-stage deal. -/
theorem C9_offstage_excluded_witness :
    dealOffStage ∉ stageDeals [dealOffStage] "proposal" ∧
      dealOffStage ∈ monthlyBucketDeals [dealOffStage] (monthKey dealOffStage) := by
  have h := C9_offstage_excluded_from_totals.1 [dealOffStage] dealOffStage
    (by simp [openDeals, dealOffStage]) (by decide)
  exact ⟨h.1 "proposal" (by decide), h.2⟩

/-! ## Claim C4: the retry wrapper -/

lemma retryLoop_ok {α : Type} {op : Nat → Except String α} {attempt : Nat} {a : α}
    (h : op attempt = Except.ok a) (m : Nat) :
    retryLoop op m attempt = (Except.ok a, []) := by
  rw [retryLoop.eq_def, h]

lemma retryLoop_raise {α : Type} {op : Nat → Except String α} {attempt : Nat}
    {e : String} (h : op attempt = Except.error e) (m : Nat)
    (hc : ¬(isRetryable e = true ∧ attempt < m - 1)) :
    retryLoop op m attempt = (Except.error e, []) := by
  rw [retryLoop.eq_def, h]
  dsimp only
  rw [dif_neg hc]

/-- Chaining `k` retryable failures from `attempt` walks the loop to
`attempt + k`, sleeping `attempt+1, ..., attempt+k` seconds on the way. -/
lemma retryLoop_skip {α : Type} (op : Nat → Except String α) (m : Nat) :
    ∀ (k attempt : Nat),
      (∀ j, attempt ≤ j → j < attempt + k →
        ∃ e, op j = Except.error e ∧ isRetryable e = true) →
      attempt + k ≤ m - 1 →
      retryLoop op m attempt =
        ((retryLoop op m (attempt + k)).1,
         List.range' (attempt + 1) k ++ (retryLoop op m (attempt + k)).2) := by
  intro k
  induction k with
  | zero => intro attempt _ _; simp
  | succ k ih =>
      intro attempt hpre hle
      obtain ⟨e, he, hr⟩ := hpre attempt (le_refl _) (by omega)
      have hlt : attempt < m - 1 := by omega
      have hstep : retryLoop op m attempt =
          ((retryLoop op m (attempt + 1)).1,
           (attempt + 1) :: (retryLoop op m (attempt + 1)).2) := by
        rw [retryLoop.eq_def, he]
        dsimp only
        rw [dif_pos ⟨hr, hlt⟩]
      have hrest := ih (attempt + 1)
        (fun j hj1 hj2 => hpre j (by omega) (by omega)) (by omega)
      rw [hstep, hrest, List.range'_succ]
      have hidx : attempt + 1 + k = attempt + (k + 1) := by omega
      rw [hidx]
      rfl

/-- The loop's outcome only depends on the outcomes of attempts `0..m-1`. -/
lemma retryLoop_congr {α : Type} (op op' : Nat → Except String α) (m : Nat)
    (h : ∀ i, i < m → op i = op' i) :
    ∀ (n attempt : Nat), m - 1 - attempt = n → attempt < m →
      retryLoop op m attempt = retryLoop op' m attempt := by
  intro n
  induction n with
  | zero =>
      intro attempt hn hlt
      rw [retryLoop.eq_def op, retryLoop.eq_def op', h attempt hlt]
      cases hca : op' attempt with
      | ok a => rfl
      | error e =>
          dsimp only
          rw [dif_neg (by rintro ⟨-, h2⟩; omega), dif_neg (by rintro ⟨-, h2⟩; omega)]
  | succ n ih =>
      intro attempt hn hlt
      rw [retryLoop.eq_def op, retryLoop.eq_def op', h attempt hlt]
      cases hca : op' attempt with
      | ok a => rfl
      | error e =>
          dsimp only
          by_cases hc : isRetryable e = true ∧ attempt < m - 1
          · rw [dif_pos hc, dif_pos hc, ih (attempt + 1) (by omega) (by omega)]
          · rw [dif_neg hc, dif_neg hc]

/-- C4: with the default `max_retries = 5`, after `k < 5` straight retryable
failures (each followed by a sleep of `attempt+1` seconds, i.e. `1, ..., k`):
a success on attempt `k` returns the operation's result; a non-retryable
error on attempt `k` is re-raised unchanged; any error on the 5th attempt
(`k = 4`) is re-raised unchanged; and the outcome never depends on anything
past the first five attempts. -/
theorem C4_execute_with_retry {α : Type} (op : Nat → Except String α) (k : Nat)
    (hk : k < 5)
    (hpre : ∀ j, j < k → ∃ e, op j = Except.error e ∧ isRetryable e = true) :
    (∀ a, op k = Except.ok a →
      execute_with_retry op 5 = (Except.ok a, List.range' 1 k)) ∧
    (∀ e, op k = Except.error e → isRetryable e = false →
      execute_with_retry op 5 = (Except.error e, List.range' 1 k)) ∧
    (k = 4 → ∀ e, op 4 = Except.error e →
      execute_with_retry op 5 = (Except.error e, List.range' 1 4)) ∧
    (∀ op' : Nat → Except String α, (∀ i, i < 5 → op i = op' i) →
      execute_with_retry op 5 = execute_with_retry op' 5) := by
  have hskip : retryLoop op 5 0 =
      ((retryLoop op 5 k).1, List.range' 1 k ++ (retryLoop op 5 k).2) := by
    have h := retryLoop_skip op 5 k 0
      (fun j h1 h2 => hpre j (by omega)) (by omega)
    simpa using h
  refine ⟨?_, ?_, ?_, ?_⟩
  · intro a ha
    unfold execute_with_retry
    rw [hskip, retryLoop_ok ha]
    simp
  · intro e he hre
    unfold execute_with_retry
    rw [hskip, retryLoop_raise he 5 (by simp [hre])]
    simp
  · intro hk4 e he
    subst hk4
    unfold execute_with_retry
    rw [hskip, retryLoop_raise he 5 (by rintro ⟨-, h2⟩; omega)]
    simp
  · intro op' hsame
    unfold execute_with_retry
    exact retryLoop_congr op op' 5 hsame 4 0 rfl (by omega)

/-- C4 witness: an operation locked on its first two attempts succeeds on the
third, after sleeping 1 then 2 seconds. -/
theorem C4_execute_with_retry_witness :
    execute_with_retry exRetryOp 5 = (Except.ok 42, [1, 2]) := by
  have h := (C4_execute_with_retry exRetryOp 2 (by omega)
    (fun j hj => ⟨"database is locked", by simp [exRetryOp, hj], by decide⟩)).1
    42 rfl
  rw [h]
  rfl

/-! ## Claim C8: the weekly digest -/

lemma dueInWindow_iff (due : Option Nat) (m s : Nat) :
    dueInWindow due m s = true ↔ ∃ dd, due = some dd ∧ m ≤ dd ∧ dd ≤ s := by
  cases due <;> simp [dueInWindow]

/-- C8: `GET /api/tasks/this-week` contains exactly the tasks whose due date
falls in the Monday–Sunday window of the current week and that are not
completed, together with exactly the activities due in that window; a task
due on the Wednesday of the current week with `completed = false` appears,
and the same task with `completed = true` does not. -/
theorem C8_tasks_this_week_window :
    (∀ (activities : List Activity) (tasks : List Task) (today : Nat),
      (∀ t : Task,
        WeekItem.task t ∈ get_tasks_this_week activities tasks today ↔
          (t ∈ tasks ∧
            (∃ dd, t.due_date = some dd ∧ today - today % 7 ≤ dd ∧
              dd ≤ today - today % 7 + 6) ∧
            t.completed = false)) ∧
      (∀ a : Activity,
        WeekItem.nextStep a ∈ get_tasks_this_week activities tasks today ↔
          (a ∈ activities ∧
            (∃ dd, a.due_date = some dd ∧ today - today % 7 ≤ dd ∧
              dd ≤ today - today % 7 + 6)))) ∧
    WeekItem.task exTaskWed ∈ get_tasks_this_week [] [exTaskWed] 9 ∧
    WeekItem.task exTaskWedDone ∉ get_tasks_this_week [] [exTaskWedDone] 9 := by
  have htask : ∀ (activities : List Activity) (tasks : List Task) (today : Nat)
      (t : Task),
      WeekItem.task t ∈ get_tasks_this_week activities tasks today ↔
        (t ∈ tasks ∧
          (∃ dd, t.due_date = some dd ∧ today - today % 7 ≤ dd ∧
            dd ≤ today - today % 7 + 6) ∧
          t.completed = false) := by
    intro activities tasks today t
    simp [get_tasks_this_week, List.mem_mergeSort, List.mem_append, List.mem_filter,
      dueInWindow_iff, Bool.not_eq_true, and_assoc]
    constructor
    · rintro ⟨a, ha, hP, hQ, rfl⟩
      exact ⟨ha, hP, hQ⟩
    · rintro ⟨ht, hP, hQ⟩
      exact ⟨t, ht, hP, hQ, rfl⟩
  have hact : ∀ (activities : List Activity) (tasks : List Task) (today : Nat)
      (a : Activity),
      WeekItem.nextStep a ∈ get_tasks_this_week activities tasks today ↔
        (a ∈ activities ∧
          (∃ dd, a.due_date = some dd ∧ today - today % 7 ≤ dd ∧
            dd ≤ today - today % 7 + 6)) := by
    intro activities tasks today a
    simp [get_tasks_this_week, List.mem_mergeSort, List.mem_append, List.mem_filter,
      dueInWindow_iff]
  refine ⟨fun activities tasks today => ⟨htask activities tasks today,
    hact activities tasks today⟩, ?_, ?_⟩
  · exact (htask [] [exTaskWed] 9 exTaskWed).mpr
      ⟨by simp, ⟨9, rfl, by norm_num, by norm_num⟩, rfl⟩
  · intro h
    have h2 := (htask [] [exTaskWedDone] 9 exTaskWedDone).mp h
    have hc : exTaskWedDone.completed = true := rfl
    rw [hc] at h2
    exact absurd h2.2.2 (by simp)

/-- C8 witness: the Wednesday task of the concrete example is in the digest. -/
theorem C8_tasks_this_week_witness :
    WeekItem.task exTaskWed ∈ get_tasks_this_week [] [exTaskWed] 9 :=
  C8_tasks_this_week_window.2.1

/-! ## Claims C1 and C2: the company backfill -/

lemma backfillStep_skip (st : DB × List (String × Nat)) (row : Nat × String)
    (he : pyStrip row.2 = "") : backfillStep st row = st := by
  unfold backfillStep
  rw [if_pos he]

/-- The four shapes one loop iteration can take: skipped (whitespace name),
`company_map` hit, exact-name database hit, or company creation. -/
lemma backfillStep_cases (st : DB × List (String × Nat)) (row : Nat × String) :
    (pyStrip row.2 = "" ∧ backfillStep st row = st) ∨
    (pyStrip row.2 ≠ "" ∧ ∃ j,
      backfillStep st row =
        ({ contacts := setContactCompanyId st.1.contacts row.1 j,
           companies := st.1.companies }, st.2) ∧
      alookup st.2 (pyStrip row.2) = some j) ∨
    (pyStrip row.2 ≠ "" ∧ ∃ j,
      backfillStep st row =
        ({ contacts := setContactCompanyId st.1.contacts row.1 j,
           companies := st.1.companies }, (pyStrip row.2, j) :: st.2) ∧
      alookup st.2 (pyStrip row.2) = none ∧
      lookupCompanyByName st.1.companies (pyStrip row.2) = some j) ∨
    (pyStrip row.2 ≠ "" ∧
      backfillStep st row =
        ({ contacts := setContactCompanyId st.1.contacts row.1
             (nextCompanyId st.1.companies),
           companies := st.1.companies ++
             [{ id := nextCompanyId st.1.companies, name := pyStrip row.2,
                website := none, industry := none, notes := none }] },
         (pyStrip row.2, nextCompanyId st.1.companies) :: st.2) ∧
      alookup st.2 (pyStrip row.2) = none ∧
      lookupCompanyByName st.1.companies (pyStrip row.2) = none) := by
  by_cases he : pyStrip row.2 = ""
  · exact Or.inl ⟨he, backfillStep_skip st row he⟩
  · rcases hma : alookup st.2 (pyStrip row.2) with _ | cid
    · rcases hlc : lookupCompanyByName st.1.companies (pyStrip row.2) with _ | cid2
      · refine Or.inr (Or.inr (Or.inr ⟨he, ?_, rfl, rfl⟩))
        unfold backfillStep
        rw [if_neg he, hma]
        dsimp only
        rw [hlc]
      · refine Or.inr (Or.inr (Or.inl ⟨he, cid2, ?_, rfl, rfl⟩))
        unfold backfillStep
        rw [if_neg he, hma]
        dsimp only
        rw [hlc]
    · refine Or.inr (Or.inl ⟨he, cid, ?_, rfl⟩)
      unfold backfillStep
      rw [if_neg he, hma]

lemma backfillStep_cmap_persist (st : DB × List (String × Nat)) (row : Nat × String)
    {n : String} {j : Nat} (h : alookup st.2 n = some j) :
    alookup (backfillStep st row).2 n = some j := by
  rcases backfillStep_cases st row with ⟨_, heq⟩ | ⟨_, j', heq, _⟩ |
    ⟨_, j', heq, hma, _⟩ | ⟨_, heq, hma, _⟩
  · rw [heq]; exact h
  · rw [heq]; exact h
  · rw [heq]
    have hne2 : ¬ pyStrip row.2 = n := by
      intro heq2
      rw [heq2, h] at hma
      cases hma
    simpa [alookup, hne2] using h
  · rw [heq]
    have hne2 : ¬ pyStrip row.2 = n := by
      intro heq2
      rw [heq2, h] at hma
      cases hma
    simpa [alookup, hne2] using h

lemma backfillStep_companies_mono (st : DB × List (String × Nat)) (row : Nat × String)
    {co : Company} (h : co ∈ st.1.companies) :
    co ∈ (backfillStep st row).1.companies := by
  rcases backfillStep_cases st row with ⟨_, heq⟩ | ⟨_, j', heq, _⟩ |
    ⟨_, j', heq, _, _⟩ | ⟨_, heq, _, _⟩ <;> rw [heq]
  · exact h
  · exact h
  · exact h
  · exact List.mem_append_left _ h

lemma lookupCompanyByName_sound {companies : List Company} {nm : String} {j : Nat}
    (h : lookupCompanyByName companies nm = some j) :
    ∃ co ∈ companies, co.id = j ∧ co.name = nm := by
  unfold lookupCompanyByName at h
  rcases hf : companies.find? (fun co => co.name == nm) with _ | co
  · rw [hf] at h; cases h
  · rw [hf] at h
    have hco : co.id = j := by simpa using h
    have hname : co.name = nm := by simpa using List.find?_some hf
    exact ⟨co, List.mem_of_find?_eq_some hf, hco, hname⟩

lemma backfillStep_sound (st : DB × List (String × Nat)) (row : Nat × String)
    (h : cmapSound st.1.companies st.2) :
    cmapSound (backfillStep st row).1.companies (backfillStep st row).2 := by
  rcases backfillStep_cases st row with ⟨_, heq⟩ | ⟨_, j', heq, _⟩ |
    ⟨_, j', heq, hma, hlc⟩ | ⟨_, heq, hma, hlc⟩ <;> rw [heq] <;> intro n j hnj
  · exact h n j hnj
  · exact h n j hnj
  · by_cases hn : pyStrip row.2 = n
    · have hj : j' = j := by simpa [alookup, hn] using hnj
      obtain ⟨co, hmem, hid, hname⟩ := lookupCompanyByName_sound hlc
      exact ⟨co, hmem, by rw [hid, hj], by rw [hname, hn]⟩
    · have halo : alookup st.2 n = some j := by simpa [alookup, hn] using hnj
      exact h n j halo
  · by_cases hn : pyStrip row.2 = n
    · have hj : nextCompanyId st.1.companies = j := by simpa [alookup, hn] using hnj
      refine ⟨{ id := nextCompanyId st.1.companies, name := pyStrip row.2,
                website := none, industry := none, notes := none },
        List.mem_append_right _ (List.mem_singleton.mpr rfl), hj, hn⟩
    · have halo : alookup st.2 n = some j := by simpa [alookup, hn] using hnj
      obtain ⟨co, hmem, hid, hname⟩ := h n j halo
      exact ⟨co, List.mem_append_left _ hmem, hid, hname⟩

lemma backfillStep_assign (st : DB × List (String × Nat)) (row : Nat × String)
    (hne : pyStrip row.2 ≠ "") :
    ∃ j, (backfillStep st row).1.contacts = setContactCompanyId st.1.contacts row.1 j ∧
      alookup (backfillStep st row).2 (pyStrip row.2) = some j := by
  rcases backfillStep_cases st row with ⟨he, _⟩ | ⟨_, j', heq, hma⟩ |
    ⟨_, j', heq, _, _⟩ | ⟨_, heq, _, _⟩
  · exact absurd he hne
  · exact ⟨j', by rw [heq], by rw [heq]; exact hma⟩
  · exact ⟨j', by rw [heq], by rw [heq]; simp [alookup]⟩
  · exact ⟨nextCompanyId st.1.companies, by rw [heq], by rw [heq]; simp [alookup]⟩

lemma rowLookup_eq_none (rows : List (Nat × String)) (q : Nat)
    (h : q ∉ rows.map Prod.fst) : rowLookup rows q = none := by
  induction rows with
  | nil => rfl
  | cons r t ih =>
      rcases r with ⟨a, b⟩
      simp only [List.map_cons, List.mem_cons] at h
      push_neg at h
      simp only [rowLookup]
      rw [if_neg (fun hh => h.1 hh.symm)]
      exact ih h.2

lemma rowLookup_eq_some_of_mem (rows : List (Nat × String))
    (hnd : (rows.map Prod.fst).Nodup) {q : Nat} {s : String}
    (hm : (q, s) ∈ rows) : rowLookup rows q = some s := by
  induction rows with
  | nil => cases hm
  | cons r t ih =>
      rcases r with ⟨a, b⟩
      rw [List.map_cons] at hnd
      have hnd2 := List.nodup_cons.mp hnd
      rcases List.mem_cons.mp hm with heq | hmem
      · injection heq with h1 h2
        simp only [rowLookup]
        rw [if_pos h1.symm, h2]
      · have hne : ¬ a = q := by
          intro hh
          exact hnd2.1 (hh ▸ (List.mem_map.mpr ⟨(q, s), hmem, rfl⟩))
        simp only [rowLookup]
        rw [if_neg hne]
        exact ih hnd2.2 hmem

lemma mem_of_rowLookup_eq_some (rows : List (Nat × String)) (q : Nat) (s : String)
    (h : rowLookup rows q = some s) : (q, s) ∈ rows := by
  induction rows with
  | nil => cases h
  | cons r t ih =>
      rcases r with ⟨a, b⟩
      simp only [rowLookup] at h
      by_cases ha : a = q
      · rw [if_pos ha] at h
        injection h with h2
        exact List.mem_cons.mpr (Or.inl (by rw [← ha, h2]))
      · rw [if_neg ha] at h
        exact List.mem_cons_of_mem _ (ih h)

lemma applyAssign_id (resolve : String → Option Nat) (rows : List (Nat × String))
    (ct : Contact) : (applyAssign resolve rows ct).id = ct.id := by
  unfold applyAssign
  cases h : rowLookup rows ct.id with
  | none => rfl
  | some s =>
      by_cases he : pyStrip s = ""
      · simp [he]
      · cases hr : resolve (pyStrip s) <;> simp [he, hr]

lemma applyAssign_of_none {resolve : String → Option Nat} {rows : List (Nat × String)}
    {ct : Contact} (h : rowLookup rows ct.id = none) :
    applyAssign resolve rows ct = ct := by
  unfold applyAssign
  rw [h]

lemma applyAssign_of_strip_empty {resolve : String → Option Nat}
    {rows : List (Nat × String)} {ct : Contact} {s : String}
    (h : rowLookup rows ct.id = some s) (he : pyStrip s = "") :
    applyAssign resolve rows ct = ct := by
  unfold applyAssign
  rw [h]
  dsimp only
  rw [if_pos he]

lemma applyAssign_of_resolve {resolve : String → Option Nat}
    {rows : List (Nat × String)} {ct : Contact} {s : String} {j : Nat}
    (h : rowLookup rows ct.id = some s) (he : pyStrip s ≠ "")
    (hr : resolve (pyStrip s) = some j) :
    applyAssign resolve rows ct = { ct with company_id := some j } := by
  unfold applyAssign
  rw [h]
  dsimp only
  rw [if_neg he, hr]

lemma foldl_backfillStep_skip (rows : List (Nat × String)) :
    ∀ st : DB × List (String × Nat), (∀ r ∈ rows, pyStrip r.2 = "") →
      rows.foldl backfillStep st = st := by
  induction rows with
  | nil => intro st _; rfl
  | cons r t ih =>
      intro st h
      rw [List.foldl_cons, backfillStep_skip st r (h r (List.mem_cons_self r t))]
      exact ih st (fun r' hr' => h r' (List.mem_cons_of_mem r hr'))

/-- The backfill fold, characterised: `company_map` entries persist, company
rows persist, the map stays sound, every processed non-whitespace name ends up
resolvable, and the final contacts table is the original one with exactly the
fetched non-whitespace rows relinked through the final resolution map. -/
theorem backfill_foldl_spec :
    ∀ (rows : List (Nat × String)) (db : DB) (cmap : List (String × Nat)),
      (rows.map Prod.fst).Nodup →
      cmapSound db.companies cmap →
      (∀ n j, alookup cmap n = some j →
        alookup (rows.foldl backfillStep (db, cmap)).2 n = some j) ∧
      (∀ co ∈ db.companies, co ∈ (rows.foldl backfillStep (db, cmap)).1.companies) ∧
      cmapSound (rows.foldl backfillStep (db, cmap)).1.companies
        (rows.foldl backfillStep (db, cmap)).2 ∧
      (∀ i s, (i, s) ∈ rows → pyStrip s ≠ "" →
        ∃ j, alookup (rows.foldl backfillStep (db, cmap)).2 (pyStrip s) = some j) ∧
      (rows.foldl backfillStep (db, cmap)).1.contacts =
        db.contacts.map
          (applyAssign (fun nm => alookup (rows.foldl backfillStep (db, cmap)).2 nm)
            rows) := by
  intro rows
  induction rows with
  | nil =>
      intro db cmap _ hsound
      refine ⟨fun n j h => h, fun co h => h, hsound, by simp, ?_⟩
      simp only [List.foldl_nil]
      have h1 : db.contacts.map
          (applyAssign (fun nm => alookup cmap nm) ([] : List (Nat × String)))
            = db.contacts.map id :=
        List.map_congr_left (fun a _ => rfl)
      rw [h1, List.map_id]
  | cons r tl ih =>
      intro db cmap hnd hsound
      rcases r with ⟨i, s⟩
      rw [List.map_cons] at hnd
      have hnotmem : i ∉ tl.map Prod.fst := (List.nodup_cons.mp hnd).1
      have hnd' : (tl.map Prod.fst).Nodup := (List.nodup_cons.mp hnd).2
      rcases hstep : backfillStep (db, cmap) (i, s) with ⟨db1, cmap1⟩
      have hsound1 : cmapSound db1.companies cmap1 := by
        have h := backfillStep_sound (db, cmap) (i, s) hsound
        rw [hstep] at h
        exact h
      obtain ⟨ih1, ih2, ih3, ih4, ih5⟩ := ih db1 cmap1 hnd' hsound1
      have hfold : ((i, s) :: tl).foldl backfillStep (db, cmap)
          = tl.foldl backfillStep (db1, cmap1) := by
        rw [List.foldl_cons, hstep]
      rw [hfold]
      refine ⟨?_, ?_, ih3, ?_, ?_⟩
      · intro n j h
        apply ih1
        have hp := backfillStep_cmap_persist (db, cmap) (i, s) h
        rw [hstep] at hp
        exact hp
      · intro co hco
        apply ih2
        have hp := backfillStep_companies_mono (db, cmap) (i, s) hco
        rw [hstep] at hp
        exact hp
      · intro i' s' hm hne
        rcases List.mem_cons.mp hm with heq | hmem
        · injection heq with hi hs
          subst hi hs
          obtain ⟨j, _, hal⟩ := backfillStep_assign (db, cmap) (i', s') hne
          rw [hstep] at hal
          exact ⟨j, ih1 _ _ hal⟩
        · exact ih4 i' s' hmem hne
      · rw [ih5]
        by_cases he : pyStrip s = ""
        · have hskip := backfillStep_skip (db, cmap) (i, s) he
          rw [hstep] at hskip
          injection hskip with hdb hcm
          subst hdb hcm
          apply List.map_congr_left
          intro ct _
          by_cases hic : i = ct.id
          · have h1 : rowLookup tl ct.id = none :=
              rowLookup_eq_none tl ct.id (by rwa [← hic])
            have h2 : rowLookup ((i, s) :: tl) ct.id = some s := by
              simp only [rowLookup]
              rw [if_pos hic]
            rw [applyAssign_of_none h1, applyAssign_of_strip_empty h2 he]
          · have h2 : rowLookup ((i, s) :: tl) ct.id = rowLookup tl ct.id := by
              simp only [rowLookup]
              rw [if_neg hic]
            unfold applyAssign
            rw [h2]
        · obtain ⟨j, hcts, hal⟩ := backfillStep_assign (db, cmap) (i, s) he
          rw [hstep] at hcts hal
          have hjf : alookup (tl.foldl backfillStep (db1, cmap1)).2 (pyStrip s)
              = some j := ih1 _ _ hal
          rw [hcts]
          unfold setContactCompanyId
          rw [List.map_map]
          apply List.map_congr_left
          intro ct _
          by_cases hic : ct.id = i
          · have h1 : rowLookup tl
                ((if ct.id = i then { ct with company_id := some j } else ct) :
                  Contact).id = none := by
              rw [if_pos hic]
              exact rowLookup_eq_none tl _ (by rwa [show ({ ct with
                company_id := some j } : Contact).id = ct.id from rfl, hic])
            have h2 : rowLookup ((i, s) :: tl) ct.id = some s := by
              simp only [rowLookup]
              rw [if_pos hic.symm]
            show applyAssign _ tl (if ct.id = i then { ct with company_id := some j }
              else ct) = _
            rw [applyAssign_of_none h1, if_pos hic,
              applyAssign_of_resolve h2 he hjf]
          · have h2 : rowLookup ((i, s) :: tl) ct.id = rowLookup tl ct.id := by
              simp only [rowLookup]
              rw [if_neg (fun hh => hic hh.symm)]
            show applyAssign _ tl (if ct.id = i then { ct with company_id := some j }
              else ct) = _
            rw [if_neg hic]
            unfold applyAssign
            rw [h2]

lemma cmapSound_nil (companies : List Company) :
    cmapSound companies ([] : List (String × Nat)) :=
  fun _ _ h => Option.noConfusion h

lemma nodup_backfillRows (db : DB) (hids : (db.contacts.map Contact.id).Nodup) :
    ((backfillRows db).map Prod.fst).Nodup := by
  unfold backfillRows
  rw [List.map_map]
  have hsub : ((db.contacts.filter selectedForBackfill).map Contact.id).Sublist
      (db.contacts.map Contact.id) :=
    List.Sublist.map _ (List.filter_sublist _)
  exact List.Nodup.sublist hsub hids

lemma selected_iff (ct : Contact) :
    selectedForBackfill ct = true ↔
      ∃ s, ct.company = some s ∧ s ≠ "" ∧ ct.company_id = none := by
  rcases hcs : ct.company with _ | s <;> rcases hci : ct.company_id with _ | v <;>
    simp [selectedForBackfill, hcs, hci]

lemma mem_backfillRows {db : DB} {ct : Contact} {s : String} (hct : ct ∈ db.contacts)
    (hcs : ct.company = some s) (hcid : ct.company_id = none) (hne : s ≠ "") :
    (ct.id, s) ∈ backfillRows db := by
  unfold backfillRows
  refine List.mem_map.mpr ⟨ct, List.mem_filter.mpr ⟨hct, ?_⟩, by rw [hcs]; rfl⟩
  exact (selected_iff ct).mpr ⟨s, hcs, hne, hcid⟩

lemma backfillRows_id_not_mem {db : DB} {ct : Contact}
    (hids : (db.contacts.map Contact.id).Nodup) (hct : ct ∈ db.contacts)
    (hsel : selectedForBackfill ct = false) :
    rowLookup (backfillRows db) ct.id = none := by
  apply rowLookup_eq_none
  intro hmem
  unfold backfillRows at hmem
  rw [List.map_map] at hmem
  obtain ⟨ctf, hctf, hcte⟩ := List.mem_map.mp hmem
  have hctfmem : ctf ∈ db.contacts := List.mem_of_mem_filter hctf
  have hctfsel : selectedForBackfill ctf = true := List.of_mem_filter hctf
  have hcteq : ctf = ct := List.inj_on_of_nodup_map hids hctfmem hct hcte
  rw [hcteq, hsel] at hctfsel
  cases hctfsel

/-- C1: after a backfill pass over a database with unique contact ids, every
contact whose free-text company strips to a non-empty name and whose
`company_id` was NULL ends with `company_id` pointing at a company row named
exactly the stripped string; two such contacts with the same stripped name
point at the same company id; and a contact whose company strips to the empty
string stays unlinked. -/
theorem C1_backfill_links_contacts (db : DB)
    (hids : (db.contacts.map Contact.id).Nodup) :
    (∀ ct ∈ db.contacts, ∀ s, ct.company = some s → ct.company_id = none →
      pyStrip s ≠ "" →
      ∃ j, (∃ co ∈ (migrate_db db).companies, co.id = j ∧ co.name = pyStrip s) ∧
        ∀ ct' ∈ (migrate_db db).contacts, ct'.id = ct.id →
          ct'.company_id = some j) ∧
    (∀ ct1 ∈ db.contacts, ∀ ct2 ∈ db.contacts, ∀ s1 s2,
      ct1.company = some s1 → ct1.company_id = none → pyStrip s1 ≠ "" →
      ct2.company = some s2 → ct2.company_id = none → pyStrip s2 = pyStrip s1 →
      ∀ ct1' ∈ (migrate_db db).contacts, ∀ ct2' ∈ (migrate_db db).contacts,
        ct1'.id = ct1.id → ct2'.id = ct2.id →
          ct1'.company_id = ct2'.company_id) ∧
    (∀ ct ∈ db.contacts, ∀ s, ct.company = some s → ct.company_id = none →
      pyStrip s = "" →
      ∀ ct' ∈ (migrate_db db).contacts, ct'.id = ct.id →
        ct'.company_id = none) := by
  have hnodrows := nodup_backfillRows db hids
  obtain ⟨hper, hmono, hsoundF, hex, hcts⟩ :=
    backfill_foldl_spec (backfillRows db) db [] hnodrows (cmapSound_nil db.companies)
  have hinj : ∀ x ∈ db.contacts, ∀ y ∈ db.contacts, x.id = y.id → x = y :=
    fun x hx y hy h => List.inj_on_of_nodup_map hids hx hy h
  have hmigc : (migrate_db db).contacts = db.contacts.map
      (applyAssign
        (fun nm => alookup
          ((backfillRows db).foldl backfillStep (db, ([] : List (String × Nat)))).2 nm)
        (backfillRows db)) := hcts
  have hkey : ∀ ct ∈ db.contacts, ∀ s, ct.company = some s → ct.company_id = none →
      pyStrip s ≠ "" →
      ∃ j, alookup ((backfillRows db).foldl backfillStep
            (db, ([] : List (String × Nat)))).2 (pyStrip s) = some j ∧
        ∀ ct' ∈ (migrate_db db).contacts, ct'.id = ct.id →
          ct'.company_id = some j := by
    intro ct hct s hcs hcid hne
    have hsne : s ≠ "" := fun hh => hne (by rw [hh]; decide)
    have hrow : (ct.id, s) ∈ backfillRows db := mem_backfillRows hct hcs hcid hsne
    have hlook : rowLookup (backfillRows db) ct.id = some s :=
      rowLookup_eq_some_of_mem _ hnodrows hrow
    obtain ⟨j, hj⟩ := hex ct.id s hrow hne
    refine ⟨j, hj, ?_⟩
    intro ct' hct' hid
    rw [hmigc] at hct'
    obtain ⟨ct0, hct0, hceq⟩ := List.mem_map.mp hct'
    have hid0 : ct0.id = ct.id := by rw [← hid, ← hceq, applyAssign_id]
    have hct0eq : ct0 = ct := hinj ct0 hct0 ct hct hid0
    rw [← hceq, hct0eq, applyAssign_of_resolve hlook hne hj]
  refine ⟨?_, ?_, ?_⟩
  · intro ct hct s hcs hcid hne
    obtain ⟨j, hj, hall⟩ := hkey ct hct s hcs hcid hne
    exact ⟨j, hsoundF _ _ hj, hall⟩
  · intro ct1 hct1 ct2 hct2 s1 s2 hcs1 hcid1 hne1 hcs2 hcid2 hs21
    obtain ⟨j1, hj1, hall1⟩ := hkey ct1 hct1 s1 hcs1 hcid1 hne1
    obtain ⟨j2, hj2, hall2⟩ := hkey ct2 hct2 s2 hcs2 hcid2 (by rw [hs21]; exact hne1)
    rw [hs21, hj1] at hj2
    injection hj2 with hj12
    intro ct1' hct1' ct2' hct2' hid1 hid2
    rw [hall1 ct1' hct1' hid1, hall2 ct2' hct2' hid2, hj12]
  · intro ct hct s hcs hcid he
    intro ct' hct' hid
    rw [hmigc] at hct'
    obtain ⟨ct0, hct0, hceq⟩ := List.mem_map.mp hct'
    have hid0 : ct0.id = ct.id := by rw [← hid, ← hceq, applyAssign_id]
    have hct0eq : ct0 = ct := hinj ct0 hct0 ct hct hid0
    by_cases hse : s = ""
    · have hsel : selectedForBackfill ct = false := by
        simp [selectedForBackfill, hcs, hse]
      rw [← hceq, hct0eq,
        applyAssign_of_none (backfillRows_id_not_mem hids hct hsel)]
      exact hcid
    · have hrow : (ct.id, s) ∈ backfillRows db := mem_backfillRows hct hcs hcid hse
      have hlook : rowLookup (backfillRows db) ct.id = some s :=
        rowLookup_eq_some_of_mem _ hnodrows hrow
      rw [← hceq, hct0eq, applyAssign_of_strip_empty hlook he]
      exact hcid

/-- C1 witness: in `dbEx` the contact whose free-text company is "  Acme "
ends up linked to a company row named "Acme". -/
theorem C1_backfill_links_contacts_witness :
    ∃ j, (∃ co ∈ (migrate_db dbEx).companies, co.id = j ∧
        co.name = pyStrip "  Acme ") ∧
      ∀ ct' ∈ (migrate_db dbEx).contacts, ct'.id = exContact1.id →
        ct'.company_id = some j :=
  (C1_backfill_links_contacts dbEx (by decide)).1 exContact1 (by decide)
    "  Acme " rfl rfl (by decide)

/-- C2: a contact already carrying a `company_id` is not selected by the
backfill and survives it untouched, and immediately re-running the backfill
after a successful pass changes neither table. -/
theorem C2_backfill_idempotent (db : DB)
    (hids : (db.contacts.map Contact.id).Nodup) :
    (∀ ct ∈ db.contacts, ct.company_id ≠ none →
      selectedForBackfill ct = false ∧
      ∀ ct' ∈ (migrate_db db).contacts, ct'.id = ct.id → ct' = ct) ∧
    migrate_db (migrate_db db) = migrate_db db := by
  have hnodrows := nodup_backfillRows db hids
  obtain ⟨hper, hmono, hsoundF, hex, hcts⟩ :=
    backfill_foldl_spec (backfillRows db) db [] hnodrows (cmapSound_nil db.companies)
  have hinj : ∀ x ∈ db.contacts, ∀ y ∈ db.contacts, x.id = y.id → x = y :=
    fun x hx y hy h => List.inj_on_of_nodup_map hids hx hy h
  have hmigc : (migrate_db db).contacts = db.contacts.map
      (applyAssign
        (fun nm => alookup
          ((backfillRows db).foldl backfillStep (db, ([] : List (String × Nat)))).2 nm)
        (backfillRows db)) := hcts
  constructor
  · intro ct hct hcid
    have hsel : selectedForBackfill ct = false := by
      rcases hci : ct.company_id with _ | v
      · exact absurd hci hcid
      · rcases hcs : ct.company with _ | s <;> simp [selectedForBackfill, hcs, hci]
    refine ⟨hsel, ?_⟩
    intro ct' hct' hid
    rw [hmigc] at hct'
    obtain ⟨ct0, hct0, hceq⟩ := List.mem_map.mp hct'
    have hid0 : ct0.id = ct.id := by rw [← hid, ← hceq, applyAssign_id]
    have hct0eq : ct0 = ct := hinj ct0 hct0 ct hct hid0
    rw [← hceq, hct0eq,
      applyAssign_of_none (backfillRows_id_not_mem hids hct hsel)]
  · have hrows2 : ∀ r ∈ backfillRows (migrate_db db), pyStrip r.2 = "" := by
      intro r hr
      unfold backfillRows at hr
      obtain ⟨ct', hctf, hre⟩ := List.mem_map.mp hr
      have hct'mem : ct' ∈ (migrate_db db).contacts := List.mem_of_mem_filter hctf
      have hsel' : selectedForBackfill ct' = true := List.of_mem_filter hctf
      obtain ⟨s', hcs', hsne', hcid'⟩ := (selected_iff ct').mp hsel'
      rw [hmigc] at hct'mem
      obtain ⟨ct0, hct0, hceq⟩ := List.mem_map.mp hct'mem
      have hr2 : r.2 = s' := by
        rw [← hre]
        dsimp only
        rw [hcs']
        rfl
      rw [hr2]
      rcases hlk : rowLookup (backfillRows db) ct0.id with _ | s0
      · have hcteq : ct' = ct0 := by rw [← hceq, applyAssign_of_none hlk]
        have hsel0 : selectedForBackfill ct0 = true := by
          rw [← hcteq]; exact hsel'
        obtain ⟨s0', hcs0, hsne0, hcid0⟩ := (selected_iff ct0).mp hsel0
        have hrow := mem_backfillRows hct0 hcs0 hcid0 hsne0
        rw [rowLookup_eq_some_of_mem _ hnodrows hrow] at hlk
        cases hlk
      · by_cases hse : pyStrip s0 = ""
        · have hcteq : ct' = ct0 := by
            rw [← hceq, applyAssign_of_strip_empty hlk hse]
          have hmem0 := mem_of_rowLookup_eq_some _ _ _ hlk
          unfold backfillRows at hmem0
          obtain ⟨ctf, hctf2, hfe⟩ := List.mem_map.mp hmem0
          injection hfe with hfid hfs
          have hctfmem : ctf ∈ db.contacts := List.mem_of_mem_filter hctf2
          have hctfeq : ctf = ct0 := hinj ctf hctfmem ct0 hct0 hfid
          have hc0 : ct0.company = some s' := by rw [← hcteq]; exact hcs'
          have hss : s0 = s' := by rw [← hfs, hctfeq, hc0]; rfl
          rw [← hss]
          exact hse
        · obtain ⟨j, hj⟩ := hex ct0.id s0 (mem_of_rowLookup_eq_some _ _ _ hlk) hse
          have hcteq : ct' = { ct0 with company_id := some j } := by
            rw [← hceq, applyAssign_of_resolve hlk hse hj]
          have hcid2 : ct'.company_id = some j := by rw [hcteq]
          rw [hcid2] at hcid'
          cases hcid'
    have hnoop := foldl_backfillStep_skip (backfillRows (migrate_db db))
      (migrate_db db, []) hrows2
    calc migrate_db (migrate_db db)
        = ((backfillRows (migrate_db db)).foldl backfillStep
            (migrate_db db, [])).1 := rfl
      _ = (migrate_db db, ([] : List (String × Nat))).1 := by rw [hnoop]
      _ = migrate_db db := rfl

/-- C2 witness: re-running the backfill on the already-backfilled `dbEx`
changes nothing. -/
theorem C2_backfill_idempotent_witness :
    migrate_db (migrate_db dbEx) = migrate_db dbEx :=
  (C2_backfill_idempotent dbEx (by decide)).2

end CrmApp
